import Mathlib

/-!
Shallow embedding of the HAP-over-BLE protocol core of the
`stm32wb55-homekit` repository: the PDU codec from
`homekit-ble/src/lib.rs` and the protocol-information dispatcher from
`stm32wb55-homekit/src/main.rs`.

Byte buffers are lists of natural numbers (each entry a byte value below
256 where the claims require it).  Rust panics (`assert!`,
`unimplemented!`, `panic!`, `.expect`) are modelled as explicit `panic`
outcomes of the result types, so that the difference between a returned
error and an abort is visible in the theorems.
-/

namespace HomekitBle

/-- Error kinds, from `enum Error` in `homekit-ble/src/lib.rs`. -/
inductive Error where
  | badLength
  | unsupportedPduType (code : Nat)
  | unknownOpCode (value : Nat)
  | insufficientBuffer
  deriving DecidableEq, Repr

/-- HAP opcodes, from `enum OpCode` (HAP Table 7-8) in lib.rs. -/
inductive OpCode where
  | characteristicSignatureRead
  | characteristicWrite
  | characteristicRead
  | characteristicTimedWrite
  | characteristicExecuteWrite
  | serviceSignatureRead
  | characteristicConfiguration
  | protocolConfiguration
  deriving DecidableEq, Repr

/-- Wire decoding of an opcode byte, from `impl TryFrom<u8> for OpCode`. -/
def OpCode.try_from (value : Nat) : Except Error OpCode :=
  match value with
  | 1 => .ok .characteristicSignatureRead
  | 2 => .ok .characteristicWrite
  | 3 => .ok .characteristicRead
  | 4 => .ok .characteristicTimedWrite
  | 5 => .ok .characteristicExecuteWrite
  | 6 => .ok .serviceSignatureRead
  | 7 => .ok .characteristicConfiguration
  | 8 => .ok .protocolConfiguration
  | other => .error (.unknownOpCode other)

/-- Fragmentation state of a PDU, from `enum Fragmented` in lib.rs. -/
inductive Fragmented where
  | first
  | continuation
  deriving DecidableEq, Repr

/-- PDU direction, from `enum PduType` in lib.rs. -/
inductive PduType where
  | request
  | response
  deriving DecidableEq, Repr

/-- Instance-id width, from `enum IidSize` in lib.rs. -/
inductive IidSize where
  | bit16
  | bit64
  deriving DecidableEq, Repr

/-- HAP status codes, from `enum HapStatus` (HAP Table 7-37) in lib.rs. -/
inductive HapStatus where
  | success
  | unsupportedPdu
  | maxProcedures
  | insufficientAuthorization
  | invalidInstanceId
  | insufficientAuthentication
  | invalidRequest
  deriving DecidableEq, Repr

/-- The wire value of a status code (`self.status as u8` in `write_into`);
the discriminant values 0x0 .. 0x6 assigned in `enum HapStatus`. -/
def HapStatus.toByte : HapStatus → Nat
  | .success => 0
  | .unsupportedPdu => 1
  | .maxProcedures => 2
  | .insufficientAuthorization => 3
  | .invalidInstanceId => 4
  | .insufficientAuthentication => 5
  | .invalidRequest => 6

/-- A parsed HAP request, from `struct HapRequest` in lib.rs. -/
structure HapRequest where
  iid_size : IidSize
  op_code : OpCode
  tid : Nat
  char_id : Nat
  data : Option (List Nat)
  deriving DecidableEq, Repr

/-- A HAP response, from `struct HapResponse` in lib.rs. -/
structure HapResponse where
  tid : Nat
  status : HapStatus
  data : List Nat
  deriving DecidableEq, Repr

/-- `HapResponse::new` in lib.rs. -/
def HapResponse.new (tid : Nat) (status : HapStatus) (data : List Nat) :
    HapResponse :=
  { tid := tid, status := status, data := data }

/-- A HAP PDU, from `enum HapPdu` in lib.rs. -/
inductive HapPdu where
  | request (r : HapRequest)
  | response (r : HapResponse)
  deriving DecidableEq, Repr

/-- Outcome of `HapPdu::parse`: a parsed PDU, a returned error, or a Rust
panic (`assert!` on a continuation fragment, `unimplemented!` on a
response PDU). -/
inductive ParseResult where
  | ok (pdu : HapPdu)
  | err (e : Error)
  | panic
  deriving DecidableEq, Repr

/-- `HapRequest::parse_after_control` in lib.rs: the request header after
the control byte is at least 4 bytes; byte 0 is the opcode, byte 1 the
transaction id, bytes 2-3 the little-endian 16-bit characteristic
instance id.  The request body is not parsed (`data: None`). -/
def HapRequest.parse_after_control (data : List Nat) (iid_size : IidSize) :
    Except Error HapRequest :=
  if data.length < 4 then .error .badLength
  else
    match OpCode.try_from (data.getD 0 0) with
    | .error e => .error e
    | .ok op_code =>
        .ok { iid_size := iid_size
              op_code := op_code
              tid := data.getD 1 0
              char_id := data.getD 2 0 + 256 * data.getD 3 0
              data := none }

/-- `HapPdu::parse` in lib.rs.  The control byte is read first
(`BadLength` on an empty buffer); bit 7 selects fragmentation and a
continuation fragment hits `assert!` (modelled as `panic`); bit 4 selects
the instance-id width; bit 1 the PDU type; nonzero reserved bits 2-3
yield `UnsupportedPduType ((control and 0b1110) shifted right by 1)`;
a response PDU hits `unimplemented!` (modelled as `panic`). -/
def HapPdu.parse (data : List Nat) : ParseResult :=
  match data.get? 0 with
  | none => .err .badLength
  | some control_field =>
    let fragmented : Fragmented :=
      if control_field &&& (1 <<< 7) = 1 <<< 7 then .continuation else .first
    if fragmented ≠ Fragmented.first then .panic
    else
      let iid_size : IidSize :=
        if control_field &&& (1 <<< 4) = 1 <<< 4 then .bit64 else .bit16
      let request_type : PduType :=
        if control_field &&& (1 <<< 1) = 1 <<< 1 then .response else .request
      if 12 &&& control_field ≠ 0 then
        .err (.unsupportedPduType ((control_field &&& 14) >>> 1))
      else
        match request_type with
        | .request =>
          match HapRequest.parse_after_control (data.drop 1) iid_size with
          | .ok r => .ok (.request r)
          | .error e => .err e
        | .response => .panic

/-- `HapResponse::size` in lib.rs: 3 header bytes (control, tid, status)
plus, for a non-empty body, 2 length bytes and the body. -/
def HapResponse.size (r : HapResponse) : Nat :=
  let header_len := 3
  let body_len := if r.data.length > 0 then r.data.length + 2 else 0
  header_len + body_len

/-- Outcome of `HapResponse::write_into` on a mutable buffer: the final
buffer contents together with success, a returned error, or a panic. -/
inductive WriteResult where
  | ok (buffer : List Nat)
  | err (e : Error) (buffer : List Nat)
  | panic (buffer : List Nat)
  deriving DecidableEq, Repr

/-- Overwrite of the buffer region starting at `off` with `src`, the
semantics of `buffer[off..(off + src.len())].copy_from_slice(src)`. -/
def copy_into (buffer : List Nat) (off : Nat) (src : List Nat) : List Nat :=
  buffer.take off ++ src ++ buffer.drop (off + src.length)

/-- `HapResponse::write_into` in lib.rs: insufficient capacity is a
returned error before anything is written; a body longer than 65535 hits
`panic!`; otherwise byte 0 is the fixed control value 2, byte 1 the tid,
byte 2 the status, and for a non-empty body bytes 3-4 are the
little-endian body length followed by the body bytes. -/
def HapResponse.write_into (r : HapResponse) (buffer : List Nat) :
    WriteResult :=
  if r.size > buffer.length then .err .insufficientBuffer buffer
  else if r.data.length > 65535 then .panic buffer
  else
    let b := ((buffer.set 0 2).set 1 r.tid).set 2 r.status.toByte
    if r.data.length > 0 then
      let b := (b.set 3 (r.data.length % 256)).set 4
        ((r.data.length >>> 8) % 256)
      .ok (copy_into b 5 r.data)
    else .ok b

/-!
The protocol-information dispatcher of `stm32wb55-homekit/src/main.rs`.

`ProtocolService::handle_attribute_modified` parses the payload of a GATT
attribute write and, for the signature-read opcodes, builds a TLV response
body, frames it with `HapResponse::write_into`, and delivers it through
`HapCharacteristic::set_value` on the signature characteristic.  The
external BLE command transport behind `set_value` is out of scope: a call
is recorded as an emitted write of the value bytes.  `rprintln!` logging
is dropped.  The `.expect(..)` calls on `write_into` and `set_value`, and
the `assert_eq!` on the filled response buffer, are modelled as `panic`
outcomes.
-/

/-- Which owned characteristic a `set_value` call targets. -/
inductive WriteTarget where
  | signature
  | version
  deriving DecidableEq, Repr

/-- One `HapCharacteristic::set_value` call: the targeted characteristic
and the bytes written to its value. -/
structure CharWrite where
  target : WriteTarget
  value : List Nat
  deriving DecidableEq, Repr

/-- Outcome of `handle_attribute_modified`: `Ok(())` or `Err(())` with the
`set_value` calls performed, or a propagated panic. -/
inductive HandleResult where
  | ok (writes : List CharWrite)
  | fail (writes : List CharWrite)
  | panic (writes : List CharWrite)
  deriving DecidableEq, Repr

/-- The protocol-core view of `struct HapCharacteristic` in main.rs: the
128-bit type UUID (16 bytes), the HAP instance id, the HAP property
flags, the GATT format byte, the unit code, and the value length of the
underlying GATT characteristic (`Characteristic::max_len`). -/
structure HapCharacteristic where
  uuid : List Nat
  instance_id : Nat
  properties : Nat
  format : Nat
  unit : Nat
  max_len : Nat
  deriving DecidableEq, Repr

/-- The protocol-core view of `struct ProtocolService` in main.rs
together with the `HapService` fields it reads: the service UUID, the
service instance id, and the two owned characteristics. -/
structure ProtocolService where
  service_uuid : List Nat
  service_instance_id : Nat
  version : HapCharacteristic
  signature : HapCharacteristic
  deriving DecidableEq, Repr

/-- Modelled from the spec: the crate declares `pub mod tlv` in
`homekit-ble/src/lib.rs` but `tlv.rs` itself is not under src/.  Spec
section 4.1: a TLV item is one type byte, one length byte holding the
value length, then the value bytes; `Tlv::new(t, v).write_into(buf)`
writes exactly these bytes and returns the count.  `Tlv.encode t v` is
that byte sequence. -/
def Tlv.encode (t : Nat) (value : List Nat) : List Nat :=
  t :: value.length :: value

/-- Modelled from the spec: integer TLV values are encoded little-endian
with length equal to the type width (spec section 4.1); for the `u16`
values passed to `Tlv::new` in main.rs this is `u16::to_le_bytes`. -/
def u16_le (v : Nat) : List Nat :=
  [v % 256, (v >>> 8) % 256]

/-- The 7-byte GATT presentation-format descriptor built inside
`handle_attribute_modified` (main.rs): a zero-initialised `[0u8; 7]`
array with index 0 set to the format byte, indices 2-3 set to the
little-endian unit code, and index 4 set to the namespace byte 1. -/
def gatt_format_bytes (ch : HapCharacteristic) : List Nat :=
  [ch.format, 0, ch.unit % 256, (ch.unit >>> 8) % 256, 1, 0, 0]

/-- `Characteristic::set_value` guarded by `.expect` as used in
`handle_attribute_modified`: values longer than the characteristic value
length return `Err(())`, which the dispatcher turns into a panic;
otherwise the write is emitted (the BLE delivery behind it is external). -/
def set_value_expect (target : WriteTarget) (ch : HapCharacteristic)
    (value : List Nat) : HandleResult :=
  if value.length > ch.max_len then .panic [] else .ok [⟨target, value⟩]

/-- `ProtocolService::handle_attribute_modified` in main.rs.

A payload parsing to a request is dispatched on its opcode:

For `ServiceSignatureRead` targeting the service instance id, the fixed
6-byte body `[0x0f, 0x02, 0x04, 0x00, 0x10, 0x00]` is framed via
`write_into` on a 50-byte zero buffer and the first `size()` bytes are
written to the signature characteristic.

For `CharacteristicSignatureRead` targeting one of the two owned
characteristics, the 53-byte TLV body (characteristic UUID, service
instance id, service UUID, properties, GATT format) is built; the source
fills a fixed `[0u8; 53]` array through `Tlv::write_into` at advancing
offsets and asserts that the final offset equals 53, so any other total
length is a panic; the body is framed via `write_into` on a 70-byte zero
buffer and the first `size()` bytes go to the signature characteristic.
An unknown target instance id logs and returns `Err(())`.

Other opcodes are ignored; a parse failure is logged and dropped. -/
def ProtocolService.handle_attribute_modified (s : ProtocolService)
    (payload : List Nat) : HandleResult :=
  match HapPdu.parse payload with
  | .ok (.request pdu) =>
    match pdu.op_code with
    | .serviceSignatureRead =>
      if pdu.char_id == s.service_instance_id then
        let response_data : List Nat := [15, 2, 4, 0, 16, 0]
        let response := HapResponse.new pdu.tid .success response_data
        match response.write_into (List.replicate 50 0) with
        | .ok resp_buff =>
            set_value_expect .signature s.signature
              (resp_buff.take response.size)
        | _ => .panic []
      else .ok []
    | .characteristicSignatureRead =>
      let ch? : Option HapCharacteristic :=
        if pdu.char_id == s.signature.instance_id then some s.signature
        else if pdu.char_id == s.version.instance_id then some s.version
        else none
      match ch? with
      | none => .fail []
      | some ch =>
        let response_data : List Nat :=
          Tlv.encode 4 ch.uuid ++
          Tlv.encode 7 (u16_le s.service_instance_id) ++
          Tlv.encode 6 s.service_uuid ++
          Tlv.encode 10 (u16_le ch.properties) ++
          Tlv.encode 12 (gatt_format_bytes ch)
        if response_data.length = 53 then
          let response := HapResponse.new pdu.tid .success response_data
          match response.write_into (List.replicate 70 0) with
          | .ok resp_buff =>
              set_value_expect .signature s.signature
                (resp_buff.take response.size)
          | _ => .panic []
        else .panic []
    | _ => .ok []
  | .ok (.response _) => .ok []
  | .err _ => .ok []
  | .panic => .panic []

/-- `ProtocolService::create_ble` in main.rs, protocol-core view: the
protocol-information service has instance id 0x10; its signature
characteristic has instance id 0x11, HAP properties `SECURE_READ`
(0x10), GATT format `Data` (0x1B), the default `Unitless` unit (0x2700)
and value length 100; its version characteristic has instance id 0x12,
`SECURE_READ`, format `String` (0x19), `Unitless`, value length 100.
The three 128-bit UUID constants come from the crate `uuid` module,
which is not under src/, so they are parameters. -/
def ProtocolService.create_ble (protocol_uuid signature_uuid version_uuid :
    List Nat) : ProtocolService :=
  { service_uuid := protocol_uuid
    service_instance_id := 16
    version :=
      { uuid := version_uuid, instance_id := 18, properties := 16,
        format := 25, unit := 9984, max_len := 100 }
    signature :=
      { uuid := signature_uuid, instance_id := 17, properties := 16,
        format := 27, unit := 9984, max_len := 100 } }

/-- A concrete protocol-service instance (all-zero UUIDs) used to
evaluate the dispatcher on closed inputs. -/
def protocol_service_inst : ProtocolService :=
  ProtocolService.create_ble (List.replicate 16 0) (List.replicate 16 0)
    (List.replicate 16 0)

theorem size_eq (r : HapResponse) :
    r.size = if r.data.length = 0 then 3 else 5 + r.data.length := by
  obtain ⟨tid, status, data⟩ := r
  cases data with
  | nil => simp [HapResponse.size]
  | cons d ds =>
      simp [HapResponse.size]
      omega

theorem write_into_eq (r : HapResponse) (buffer : List Nat)
    (hcap : r.size ≤ buffer.length) (hlen : r.data.length ≤ 65535) :
    r.write_into buffer =
      .ok (([2, r.tid, r.status.toByte] ++
            (if r.data.length = 0 then []
             else [r.data.length % 256, (r.data.length >>> 8) % 256]
               ++ r.data)) ++ buffer.drop r.size) := by
  obtain ⟨tid, status, data⟩ := r
  cases data with
  | nil =>
      have hc : 3 ≤ buffer.length := by
        rw [size_eq] at hcap
        simpa using hcap
      rcases buffer with _ | ⟨c0, _ | ⟨c1, _ | ⟨c2, t⟩⟩⟩
      · simp only [List.length_nil] at hc; omega
      · simp only [List.length_cons, List.length_nil] at hc; omega
      · simp only [List.length_cons, List.length_nil] at hc; omega
      · have hnc : ¬ ((HapResponse.mk tid status []).size
            > (c0 :: c1 :: c2 :: t).length) := by
          rw [size_eq]
          simp
        simp only [HapResponse.write_into]
        rw [if_neg hnc, if_neg (by simp : ¬ (List.length ([] : List Nat) > 65535)),
          if_neg (by simp : ¬ (List.length ([] : List Nat) > 0))]
        rw [size_eq]
        simp
  | cons d ds =>
      have hlen' : ds.length + 1 ≤ 65535 := by simpa using hlen
      have hc : 5 + (ds.length + 1) ≤ buffer.length := by
        rw [size_eq] at hcap
        simpa using hcap
      rcases buffer with _ | ⟨c0, _ | ⟨c1, _ | ⟨c2, _ | ⟨c3, _ | ⟨c4, t⟩⟩⟩⟩⟩
      · simp only [List.length_nil] at hc; omega
      · simp only [List.length_cons, List.length_nil] at hc; omega
      · simp only [List.length_cons, List.length_nil] at hc; omega
      · simp only [List.length_cons, List.length_nil] at hc; omega
      · simp only [List.length_cons, List.length_nil] at hc; omega
      · have hlt : ds.length + 1 ≤ t.length := by
          simp only [List.length_cons, List.length_nil] at hc; omega
        have hnc : ¬ ((HapResponse.mk tid status (d :: ds)).size
            > (c0 :: c1 :: c2 :: c3 :: c4 :: t).length) := by
          rw [size_eq]
          simp
          omega
        have h65 : ¬ ((d :: ds).length > 65535) := by
          simp only [List.length_cons]; omega
        have hpos : (d :: ds).length > 0 := by simp
        have hstep : HapResponse.write_into ⟨tid, status, d :: ds⟩
              (c0 :: c1 :: c2 :: c3 :: c4 :: t)
            = .ok ([2, tid, status.toByte, (d :: ds).length % 256,
                ((d :: ds).length >>> 8) % 256] ++
              ((d :: ds) ++ t.drop (d :: ds).length)) := by
          simp only [HapResponse.write_into]
          rw [if_neg hnc, if_neg h65, if_pos hpos]
          have hB : (((((c0 :: c1 :: c2 :: c3 :: c4 :: t).set 0 2).set 1
                tid).set 2 status.toByte).set 3 ((d :: ds).length % 256)).set 4
                (((d :: ds).length >>> 8) % 256)
              = 2 :: tid :: status.toByte :: ((d :: ds).length % 256) ::
                (((d :: ds).length >>> 8) % 256) :: t := rfl
          simp only [copy_into, hB]
          have hdropL : List.drop (5 + (d :: ds).length)
                (2 :: tid :: status.toByte :: ((d :: ds).length % 256) ::
                  (((d :: ds).length >>> 8) % 256) :: t)
              = t.drop (d :: ds).length := by
            rw [← List.drop_drop]
            rfl
          rw [hdropL]
          rfl
        rw [hstep, size_eq]
        have hdropR : List.drop (5 + (ds.length + 1))
              (c0 :: c1 :: c2 :: c3 :: c4 :: t)
            = t.drop (ds.length + 1) := by
          rw [← List.drop_drop]
          rfl
        simp only [List.length_cons, Nat.succ_ne_zero, ite_false, hdropR]
        simp [List.append_assoc]

end HomekitBle
namespace HomekitBle

/-- C2: for every transaction id T, status S, and body B with at most
65535 bytes, `HapResponse::new(T, S, B).write_into` on a buffer of
exactly `size()` bytes succeeds and produces byte 0 = 2 (unfragmented
response control value), byte 1 = T, byte 2 = the wire value of S, then,
for non-empty B, the little-endian 16-bit length of B followed by B;
for empty B exactly the 3 header bytes; and `size()` is 3 for empty B
and 5 + B.len() otherwise. -/
theorem response_roundtrip (T : Nat) (S : HapStatus) (B : List Nat)
    (hB : B.length ≤ 65535) (buffer : List Nat)
    (hbuf : buffer.length = (HapResponse.new T S B).size) :
    (HapResponse.new T S B).write_into buffer =
      .ok ([2, T, S.toByte] ++
        (if B.length = 0 then []
         else [B.length % 256, B.length / 256] ++ B)) ∧
    (HapResponse.new T S B).size =
      (if B.length = 0 then 3 else 5 + B.length) := by
  refine ⟨?_, size_eq _⟩
  have h := write_into_eq (HapResponse.new T S B) buffer (le_of_eq hbuf.symm) hB
  rw [h]
  have hdrop : buffer.drop (HapResponse.new T S B).size = [] := by
    rw [← hbuf]
    exact List.drop_length buffer
  rw [hdrop]
  have hsh : B.length >>> 8 % 256 = B.length / 256 := by
    rw [Nat.shiftRight_eq_div_pow]
    have hlt : B.length / 2 ^ 8 < 256 :=
      Nat.div_lt_of_lt_mul (by norm_num; omega)
    rw [Nat.mod_eq_of_lt hlt]
    norm_num
  simp [HapResponse.new, hsh]

/-- Witness for C2 at T = 7, S = success, B = [1, 2]. -/
theorem response_roundtrip_witness :
    (HapResponse.new 7 .success [1, 2]).write_into [9, 9, 9, 9, 9, 9, 9] =
      .ok [2, 7, 0, 2, 0, 1, 2] ∧
    (HapResponse.new 7 .success [1, 2]).size = 7 := by
  have h := response_roundtrip 7 .success [1, 2] (by decide)
    [9, 9, 9, 9, 9, 9, 9] (by decide)
  simpa using h

/-- C7: writing a response into a buffer strictly shorter than `size()`
fails with `InsufficientBuffer` and leaves the buffer unchanged. -/
theorem write_into_insufficient_buffer (r : HapResponse) (buffer : List Nat)
    (h : buffer.length < r.size) :
    r.write_into buffer = .err .insufficientBuffer buffer := by
  simp only [HapResponse.write_into]
  rw [if_pos (by omega : r.size > buffer.length)]

/-- Witness for C7: a 2-byte buffer for a 3-byte bodyless response. -/
theorem write_into_insufficient_buffer_witness :
    (HapResponse.new 7 .success []).write_into [4, 4] =
      .err .insufficientBuffer [4, 4] :=
  write_into_insufficient_buffer (HapResponse.new 7 .success []) [4, 4]
    (by decide)

/-- C10: a successful `write_into` modifies only the first `size()`
bytes of the buffer; the length and every byte from index `size()` on
are preserved. -/
theorem write_into_untouched_tail (r : HapResponse) (buffer : List Nat)
    (hB : r.data.length ≤ 65535) (hcap : r.size ≤ buffer.length) :
    ∃ out, r.write_into buffer = .ok out ∧ out.length = buffer.length ∧
      out.drop r.size = buffer.drop r.size := by
  have hhdr : ([2, r.tid, r.status.toByte] ++
      (if r.data.length = 0 then []
       else [r.data.length % 256, (r.data.length >>> 8) % 256]
         ++ r.data)).length = r.size := by
    rw [size_eq]
    by_cases h0 : r.data.length = 0
    · simp [h0]
    · simp [h0]
      omega
  refine ⟨_, write_into_eq r buffer hcap hB, ?_, List.drop_left' hhdr⟩
  rw [List.length_append, hhdr, List.length_drop]
  omega

/-- Witness for C10: a 1-byte body written into an 8-byte buffer. -/
theorem write_into_untouched_tail_witness :
    ∃ out, (HapResponse.new 7 .success [1]).write_into
        [9, 9, 9, 9, 9, 9, 9, 9] = .ok out ∧
      out.length = ([9, 9, 9, 9, 9, 9, 9, 9] : List Nat).length ∧
      out.drop (HapResponse.new 7 .success [1]).size =
        ([9, 9, 9, 9, 9, 9, 9, 9] : List Nat).drop
          (HapResponse.new 7 .success [1]).size :=
  write_into_untouched_tail (HapResponse.new 7 .success [1])
    [9, 9, 9, 9, 9, 9, 9, 9] (by decide) (by decide)

/-- C8: the opcode conversion maps wire bytes 1 through 8, in order, to
the eight opcodes, and every byte outside 1..=8 fails with
`UnknownOpCode` carrying that byte. -/
theorem op_code_wire_mapping :
    (OpCode.try_from 1 = .ok .characteristicSignatureRead ∧
     OpCode.try_from 2 = .ok .characteristicWrite ∧
     OpCode.try_from 3 = .ok .characteristicRead ∧
     OpCode.try_from 4 = .ok .characteristicTimedWrite ∧
     OpCode.try_from 5 = .ok .characteristicExecuteWrite ∧
     OpCode.try_from 6 = .ok .serviceSignatureRead ∧
     OpCode.try_from 7 = .ok .characteristicConfiguration ∧
     OpCode.try_from 8 = .ok .protocolConfiguration) ∧
    ∀ value : Nat, ¬ (1 ≤ value ∧ value ≤ 8) →
      OpCode.try_from value = .error (.unknownOpCode value) := by
  refine ⟨⟨rfl, rfl, rfl, rfl, rfl, rfl, rfl, rfl⟩, ?_⟩
  intro value hv
  rcases Nat.lt_or_ge value 1 with h1 | h1
  · obtain rfl : value = 0 := by omega
    rfl
  · rcases Nat.lt_or_ge value 9 with h2 | h2
    · exact absurd ⟨h1, by omega⟩ hv
    · obtain ⟨n, rfl⟩ : ∃ n, value = n + 9 := ⟨value - 9, by omega⟩
      rfl

/-- Witness for C8 at the out-of-range byte 9. -/
theorem op_code_wire_mapping_witness :
    OpCode.try_from 9 = .error (.unknownOpCode 9) :=
  op_code_wire_mapping.2 9 (by decide)

/-- C5 counterexample: the buffer [0x8C] has nonzero reserved bits 2-3
(and bit 7 set), and the claimed error value is (0x8C and 0b1110) >>> 1
= 6, but `parse` hits the continuation `assert!` and panics instead of
returning `UnsupportedPduType 6`. -/
theorem reserved_bits_counterexample :
    HapPdu.parse [140] = ParseResult.panic ∧
    (140 &&& 14) >>> 1 = 6 ∧
    ParseResult.panic ≠ .err (.unsupportedPduType 6) := by
  decide

/-- C5 amended: for every input buffer whose control byte has bit 7
clear and a nonzero value in bits 2-3, `parse` fails with
`UnsupportedPduType` carrying the 3-bit code (byte and 0b1110) >>> 1. -/
theorem parse_reserved_bits_error (data : List Nat) (b : Nat)
    (h0 : data.get? 0 = some b) (h7 : b &&& 128 = 0) (hr : b &&& 12 ≠ 0) :
    HapPdu.parse data = .err (.unsupportedPduType ((b &&& 14) >>> 1)) := by
  have h0g : data[0]? = some b := by simpa using h0
  have hrc : 12 &&& b ≠ 0 := by
    rw [Nat.land_comm]
    exact hr
  simp [HapPdu.parse, h0g, h7, hrc]

/-- Witness for amended C5 at the buffer [12]. -/
theorem parse_reserved_bits_error_witness :
    HapPdu.parse [12] = .err (.unsupportedPduType 6) := by
  have h := parse_reserved_bits_error [12] 12 rfl (by decide) (by decide)
  simpa using h

/-- C6 counterexample: on the buffer [0x80] (control byte with bit 7
set) `parse` aborts through the continuation `assert!` rather than
returning a recoverable error value. -/
theorem continuation_assert_counterexample :
    HapPdu.parse [128] = ParseResult.panic := by
  decide

/-- C6 amended: for every input buffer whose control byte has bit 7 set,
`parse` halts in the continuation assertion (a panic), so it never
returns a silently misparsed request. -/
theorem parse_continuation_panics (data : List Nat) (b : Nat)
    (h0 : data.get? 0 = some b) (h7 : b &&& 128 = 128) :
    HapPdu.parse data = .panic := by
  have h0g : data[0]? = some b := by simpa using h0
  simp [HapPdu.parse, h0g, h7]

/-- Witness for amended C6 at the buffer [0x81]. -/
theorem parse_continuation_panics_witness :
    HapPdu.parse [129] = ParseResult.panic := by
  have h := parse_continuation_panics [129] 129 rfl (by decide)
  simpa using h

end HomekitBle
namespace HomekitBle

/-- Helper: parsing a buffer with control byte 0 and a recognised opcode
byte recovers the header fields. -/
theorem parse_ok_of (b1 b2 b3 b4 : Nat) (rest : List Nat) (op : OpCode)
    (hop : OpCode.try_from b1 = .ok op) :
    HapPdu.parse (0 :: b1 :: b2 :: b3 :: b4 :: rest) =
      .ok (.request { iid_size := .bit16, op_code := op, tid := b2,
                      char_id := b3 + 256 * b4, data := none }) := by
  have hlen : ¬ (rest.length + 1 + 1 + 1 + 1 < 4) := by omega
  simp [HapPdu.parse, HapRequest.parse_after_control, hlen, hop]

/-- C1: every byte buffer of length at least 5 with control byte 0 and
opcode byte in 1..=8 parses to a request whose opcode is the one encoded
by byte 1, whose tid is byte 2, and whose char id is the little-endian
16-bit integer in bytes 3-4; in particular the spec's example buffer
yields ServiceSignatureRead with tid 1 and char id 0x0010. -/
theorem parse_valid_request :
    (∀ data : List Nat, 5 ≤ data.length → (∀ x ∈ data, x < 256) →
      data.getD 0 0 = 0 → 1 ≤ data.getD 1 0 → data.getD 1 0 ≤ 8 →
      ∃ op, OpCode.try_from (data.getD 1 0) = .ok op ∧
        HapPdu.parse data = .ok (.request
          { iid_size := .bit16, op_code := op, tid := data.getD 2 0,
            char_id := data.getD 3 0 + 256 * data.getD 4 0,
            data := none })) ∧
    HapPdu.parse [0, 6, 1, 16, 0, 0, 0, 0, 0, 0, 0, 0, 0, 0, 0, 0] =
      .ok (.request { iid_size := .bit16,
                      op_code := .serviceSignatureRead, tid := 1,
                      char_id := 16, data := none }) := by
  refine ⟨?_, by decide⟩
  intro data h5 hbytes h0 hop1 hop8
  rcases data with _ | ⟨b0, _ | ⟨b1, _ | ⟨b2, _ | ⟨b3, _ | ⟨b4, rest⟩⟩⟩⟩⟩
  · simp only [List.length_nil] at h5; omega
  · simp only [List.length_cons, List.length_nil] at h5; omega
  · simp only [List.length_cons, List.length_nil] at h5; omega
  · simp only [List.length_cons, List.length_nil] at h5; omega
  · simp only [List.length_cons, List.length_nil] at h5; omega
  · simp only [List.getD_cons_zero, List.getD_cons_succ] at h0 hop1 hop8 ⊢
    subst h0
    obtain ⟨op, hop⟩ : ∃ op, OpCode.try_from b1 = .ok op := by
      interval_cases b1
      · exact ⟨_, rfl⟩
      · exact ⟨_, rfl⟩
      · exact ⟨_, rfl⟩
      · exact ⟨_, rfl⟩
      · exact ⟨_, rfl⟩
      · exact ⟨_, rfl⟩
      · exact ⟨_, rfl⟩
      · exact ⟨_, rfl⟩
    exact ⟨op, hop, parse_ok_of b1 b2 b3 b4 rest op hop⟩

/-- Witness for C1 at the buffer [0, 3, 7, 5, 1]. -/
theorem parse_valid_request_witness :
    ∃ op, OpCode.try_from (([0, 3, 7, 5, 1] : List Nat).getD 1 0) =
        .ok op ∧
      HapPdu.parse [0, 3, 7, 5, 1] = .ok (.request
        { iid_size := .bit16, op_code := op,
          tid := ([0, 3, 7, 5, 1] : List Nat).getD 2 0,
          char_id := ([0, 3, 7, 5, 1] : List Nat).getD 3 0 +
                     256 * ([0, 3, 7, 5, 1] : List Nat).getD 4 0,
          data := none }) :=
  parse_valid_request.1 [0, 3, 7, 5, 1] (by decide) (by decide)
    (by decide) (by decide) (by decide)

/-- C9 amended: a payload on which `HapPdu::parse` returns an error is
logged and dropped: no `set_value` call happens, no response is built,
and the dispatcher returns `Ok(())`. -/
theorem malformed_pdu_dropped (s : ProtocolService) (payload : List Nat)
    (e : Error) (h : HapPdu.parse payload = .err e) :
    s.handle_attribute_modified payload = .ok [] := by
  simp [ProtocolService.handle_attribute_modified, h]

/-- Witness for amended C9 on the empty payload. -/
theorem malformed_pdu_dropped_witness :
    protocol_service_inst.handle_attribute_modified [] = .ok [] :=
  malformed_pdu_dropped protocol_service_inst [] .badLength rfl

/-- C9 counterexample: the payload [0x82] does not parse to a valid
request (the parser hits the continuation assertion), and the
dispatcher propagates the panic instead of returning normally. -/
theorem malformed_panic_counterexample :
    HapPdu.parse [130] = ParseResult.panic ∧
    protocol_service_inst.handle_attribute_modified [130] =
      HandleResult.panic [] := by
  decide

end HomekitBle
namespace HomekitBle

/-- C3: a payload parsing to a ServiceSignatureRead request whose target
instance id is the protocol-information service's instance id makes the
dispatcher build the 6-byte body [0x0f, 0x02, 0x04, 0x00, 0x10, 0x00],
frame it with status success and the request's tid, and perform exactly
one write of the framed response to the signature characteristic. -/
theorem dispatch_service_signature_read (pU sU vU : List Nat)
    (payload : List Nat) (pdu : HapRequest)
    (hparse : HapPdu.parse payload = .ok (.request pdu))
    (hop : pdu.op_code = .serviceSignatureRead)
    (hid : pdu.char_id =
      (ProtocolService.create_ble pU sU vU).service_instance_id) :
    (ProtocolService.create_ble pU sU vU).handle_attribute_modified
        payload =
      .ok [⟨.signature, [2, pdu.tid, HapStatus.success.toByte] ++
        [6, 0] ++ [15, 2, 4, 0, 16, 0]⟩] := by
  have hsz : (HapResponse.new pdu.tid .success [15, 2, 4, 0, 16, 0]).size
      = 11 := rfl
  have hw := write_into_eq
    (HapResponse.new pdu.tid .success [15, 2, 4, 0, 16, 0])
    (List.replicate 50 0) (by rw [hsz]; simp) (by simp [HapResponse.new])
  rw [hsz] at hw
  simp [HapResponse.new, List.drop_replicate] at hw
  simp [ProtocolService.handle_attribute_modified, hparse, hop, hid,
    ProtocolService.create_ble, set_value_expect, hw, hsz,
    HapResponse.new, HapStatus.toByte]
  rfl

end HomekitBle
namespace HomekitBle

/-- Helper: a successful response framing into a fresh zero buffer, and
the `size()`-byte prefix the dispatcher then writes out. -/
theorem response_frame_take (r : HapResponse) (n : Nat)
    (h0 : 0 < r.data.length) (hlen : r.data.length ≤ 65535)
    (hcap : r.size ≤ n) :
    r.write_into (List.replicate n 0) =
      .ok (([2, r.tid, r.status.toByte, r.data.length % 256,
             (r.data.length >>> 8) % 256] ++ r.data) ++
           List.replicate (n - r.size) 0) ∧
    (([2, r.tid, r.status.toByte, r.data.length % 256,
       (r.data.length >>> 8) % 256] ++ r.data) ++
      List.replicate (n - r.size) 0).take r.size =
      [2, r.tid, r.status.toByte, r.data.length % 256,
       (r.data.length >>> 8) % 256] ++ r.data := by
  have hne : ¬ (r.data.length = 0) := by omega
  have hhdr : ([2, r.tid, r.status.toByte, r.data.length % 256,
      (r.data.length >>> 8) % 256] ++ r.data).length = r.size := by
    rw [size_eq, if_neg hne]
    simp
    omega
  refine ⟨?_, List.take_left' hhdr⟩
  rw [write_into_eq r (List.replicate n 0) (by simpa using hcap) hlen,
    if_neg hne]
  simp [List.drop_replicate]

/-- Helper: the CharacteristicSignatureRead dispatch path for a matched
characteristic with a 16-byte UUID in a service with a 16-byte UUID. -/
theorem handle_char_sig (s : ProtocolService) (payload : List Nat)
    (pdu : HapRequest) (ch : HapCharacteristic)
    (hparse : HapPdu.parse payload = .ok (.request pdu))
    (hop : pdu.op_code = .characteristicSignatureRead)
    (hsel : (if pdu.char_id == s.signature.instance_id then
        some s.signature
      else if pdu.char_id == s.version.instance_id then some s.version
      else none) = some ch)
    (hcu : ch.uuid.length = 16) (hsu : s.service_uuid.length = 16)
    (h58 : ¬ (58 > s.signature.max_len)) :
    s.handle_attribute_modified payload =
      .ok [⟨.signature,
        [2, pdu.tid, HapStatus.success.toByte, 53, 0] ++
        (Tlv.encode 4 ch.uuid ++
         Tlv.encode 7 (u16_le s.service_instance_id) ++
         Tlv.encode 6 s.service_uuid ++
         Tlv.encode 10 (u16_le ch.properties) ++
         Tlv.encode 12 (gatt_format_bytes ch))⟩] := by
  have hblen : (Tlv.encode 4 ch.uuid ++
      Tlv.encode 7 (u16_le s.service_instance_id) ++
      Tlv.encode 6 s.service_uuid ++
      Tlv.encode 10 (u16_le ch.properties) ++
      Tlv.encode 12 (gatt_format_bytes ch)).length = 53 := by
    simp [Tlv.encode, u16_le, gatt_format_bytes, hcu, hsu]
  have hd : (HapResponse.new pdu.tid .success
      (Tlv.encode 4 ch.uuid ++
       Tlv.encode 7 (u16_le s.service_instance_id) ++
       Tlv.encode 6 s.service_uuid ++
       Tlv.encode 10 (u16_le ch.properties) ++
       Tlv.encode 12 (gatt_format_bytes ch))).data.length = 53 := hblen
  obtain ⟨hwi, htk⟩ := response_frame_take
    (HapResponse.new pdu.tid .success
      (Tlv.encode 4 ch.uuid ++
       Tlv.encode 7 (u16_le s.service_instance_id) ++
       Tlv.encode 6 s.service_uuid ++
       Tlv.encode 10 (u16_le ch.properties) ++
       Tlv.encode 12 (gatt_format_bytes ch))) 70
    (by omega) (by omega) (by rw [size_eq, hd]; norm_num)
  simp only [ProtocolService.handle_attribute_modified, hparse, hop,
    hsel]
  rw [if_pos hblen]
  simp only [hwi, htk]
  simp [set_value_expect, HapResponse.new, Tlv.encode, u16_le,
    gatt_format_bytes, hcu, hsu, h58]

end HomekitBle
namespace HomekitBle

/-- Witness for C3 at the payload [0, 6, 1, 0x10, 0]. -/
theorem dispatch_service_signature_read_witness :
    protocol_service_inst.handle_attribute_modified [0, 6, 1, 16, 0] =
      .ok [⟨.signature, [2, 1, HapStatus.success.toByte] ++ [6, 0] ++
        [15, 2, 4, 0, 16, 0]⟩] := by
  have h := dispatch_service_signature_read (List.replicate 16 0)
    (List.replicate 16 0) (List.replicate 16 0) [0, 6, 1, 16, 0]
    { iid_size := .bit16, op_code := .serviceSignatureRead, tid := 1,
      char_id := 16, data := none }
    (by decide) rfl rfl
  exact h

/-- C4 counterexample: on the concrete CharacteristicSignatureRead
request [0, 1, 1, 0x11, 0] (targeting the signature characteristic)
with all-zero UUIDs, the written value ends in the GATT-format TLV whose
7-byte value is [0x1b, 0, 0, 0x27, 1, 0, 0]: the little-endian unit code
0x2700 sits at bytes 2-3 and the namespace byte 1 at byte 4, which
differs from the claimed layout (reserved bytes 1-2, unit at bytes 3-4,
namespace at byte 5, giving [0x1b, 0, 0, 0, 0x27, 1, 0]). -/
theorem gatt_format_layout_counterexample :
    protocol_service_inst.handle_attribute_modified [0, 1, 1, 17, 0] =
      .ok [⟨.signature,
        [2, 1, 0, 53, 0] ++ (4 :: 16 :: List.replicate 16 0) ++
        [7, 2, 16, 0] ++ (6 :: 16 :: List.replicate 16 0) ++
        [10, 2, 16, 0] ++ [12, 7] ++ [27, 0, 0, 39, 1, 0, 0]⟩] ∧
    [27, 0, 0, 39, 1, 0, 0] ≠ [27, 0, 0, 0, 39, 1, 0] := by
  decide

/-- C4 amended: a CharacteristicSignatureRead request matching one of
the two owned characteristics produces a body of exactly five TLV items
in order: the characteristic type UUID, the owning service's 16-bit
instance id, the owning service's type UUID, the characteristic's
16-bit HAP-properties flags, and a 7-byte GATT-format descriptor laid
out as byte 0 = format, byte 1 reserved (zero), bytes 2-3 = little-endian
unit code, byte 4 = namespace fixed to 1, bytes 5-6 reserved (zero). -/
theorem dispatch_characteristic_signature_read (pU sU vU : List Nat)
    (hp : pU.length = 16) (hs : sU.length = 16) (hv : vU.length = 16)
    (payload : List Nat) (pdu : HapRequest)
    (hparse : HapPdu.parse payload = .ok (.request pdu))
    (hop : pdu.op_code = .characteristicSignatureRead)
    (ch : HapCharacteristic)
    (hch : (pdu.char_id =
        (ProtocolService.create_ble pU sU vU).signature.instance_id ∧
        ch = (ProtocolService.create_ble pU sU vU).signature) ∨
      (pdu.char_id =
        (ProtocolService.create_ble pU sU vU).version.instance_id ∧
        ch = (ProtocolService.create_ble pU sU vU).version)) :
    (ProtocolService.create_ble pU sU vU).handle_attribute_modified
        payload =
      .ok [⟨.signature,
        [2, pdu.tid, HapStatus.success.toByte, 53, 0] ++
        (Tlv.encode 4 ch.uuid ++
         Tlv.encode 7
           [(ProtocolService.create_ble pU sU vU).service_instance_id %
              256,
            (ProtocolService.create_ble pU sU vU).service_instance_id /
              256] ++
         Tlv.encode 6 (ProtocolService.create_ble pU sU vU).service_uuid
           ++
         Tlv.encode 10 [ch.properties % 256, ch.properties / 256] ++
         Tlv.encode 12 [ch.format, 0, ch.unit % 256, ch.unit / 256, 1,
           0, 0])⟩] := by
  rcases hch with ⟨hid, rfl⟩ | ⟨hid, rfl⟩
  · have h := handle_char_sig (ProtocolService.create_ble pU sU vU)
      payload pdu (ProtocolService.create_ble pU sU vU).signature hparse
      hop (by simp [ProtocolService.create_ble, hid]) (by simpa using hs)
      (by simpa using hp) (by simp [ProtocolService.create_ble])
    rw [h]
    simp only [ProtocolService.create_ble, u16_le, gatt_format_bytes]
    norm_num [Nat.shiftRight_eq_div_pow]
  · have h := handle_char_sig (ProtocolService.create_ble pU sU vU)
      payload pdu (ProtocolService.create_ble pU sU vU).version hparse
      hop (by simp [ProtocolService.create_ble, hid]) (by simpa using hv)
      (by simpa using hp) (by simp [ProtocolService.create_ble])
    rw [h]
    simp only [ProtocolService.create_ble, u16_le, gatt_format_bytes]
    norm_num [Nat.shiftRight_eq_div_pow]

/-- Witness for amended C4 at the payload [0, 1, 2, 0x12, 0] targeting
the version characteristic. -/
theorem dispatch_characteristic_signature_read_witness :
    protocol_service_inst.handle_attribute_modified [0, 1, 2, 18, 0] =
      .ok [⟨.signature,
        [2, 2, HapStatus.success.toByte, 53, 0] ++
        (Tlv.encode 4 protocol_service_inst.version.uuid ++
         Tlv.encode 7 [protocol_service_inst.service_instance_id % 256,
           protocol_service_inst.service_instance_id / 256] ++
         Tlv.encode 6 protocol_service_inst.service_uuid ++
         Tlv.encode 10 [protocol_service_inst.version.properties % 256,
           protocol_service_inst.version.properties / 256] ++
         Tlv.encode 12 [protocol_service_inst.version.format, 0,
           protocol_service_inst.version.unit % 256,
           protocol_service_inst.version.unit / 256, 1, 0, 0])⟩] := by
  have h := dispatch_characteristic_signature_read (List.replicate 16 0)
    (List.replicate 16 0) (List.replicate 16 0) (by decide) (by decide)
    (by decide) [0, 1, 2, 18, 0]
    { iid_size := .bit16, op_code := .characteristicSignatureRead,
      tid := 2, char_id := 18, data := none }
    (by decide) rfl
    (ProtocolService.create_ble (List.replicate 16 0)
      (List.replicate 16 0) (List.replicate 16 0)).version
    (Or.inr ⟨rfl, rfl⟩)
  exact h

end HomekitBle
